import Mathlib

/-!
ApiGateway: request dispatch and admission control

A shallow embedding of the Go sources

* `pkg/router/router.go` (the router and the middleware composition),
* `internal/middleware/middleware.go` (Logger, CORS, RateLimiter and its sweep),
* `internal/config/config.go` (Config, Load and Validate),
* `internal/gateway/gateway.go` (New, setupRoutes, addServiceRoute),

followed by the properties the specification states about them.

Conventions of the embedding:

* a Go `string` is a Lean `String`; `strings.HasPrefix`, `strings.HasSuffix` and
  `strings.TrimSuffix` compare the sequences of symbols, which for well-formed UTF-8 text
  is the comparison of bytes that Go makes;
* a Go `map[string]V` is a finite partial function (`GoMap V`); a `range` over it visits
  the entries in an order the language leaves open, so every function that ranges over a
  map takes the visiting order as an argument and the theorems quantify over all orders;
* a value of interface type `http.Handler` may be `nil`: it is an `Option Handler`, and
  `none` is the nil interface the router tests with `handler == nil`; a middleware is a
  total function on handlers;
* a Go `int` is a 64 bit two-complement integer: an `Int` wrapped by `wrapInt64` where the
  source multiplies;
* a handler is a state transformer on `World`, the response being written, the clock, the
  log and the client store of the rate limiter.
-/

namespace ApiGateway

/-! ## Package strings -/

/-- Go strings.HasPrefix: `s` begins with `pre`. -/
def HasPrefix (s pre : String) : Bool := pre.data.isPrefixOf s.data

/-- Go strings.HasSuffix: `s` ends with `suf`. -/
def HasSuffix (s suf : String) : Bool := suf.data.isSuffixOf s.data

/-- Go strings.TrimSuffix: `s` without the trailing `suf`, or `s` itself when it does not
end with `suf`. -/
def TrimSuffix (s suf : String) : String :=
  if HasSuffix s suf then String.mk (s.data.take (s.data.length - suf.data.length)) else s

/-! ## Go maps -/

/-- A Go `map[string]V`: `get k` is `some v` when the key is present with value `v`. -/
structure GoMap (V : Type) where
  get : String → Option V

namespace GoMap

variable {V : Type}

/-- The map `make(map[string]V)`. -/
def empty : GoMap V := ⟨fun _ => none⟩

/-- The assignment `m[k] = v`: the last write for a key wins. -/
def set (m : GoMap V) (k : String) (v : V) : GoMap V :=
  ⟨fun j => if j = k then some v else m.get j⟩

/-- The builtin `delete(m, k)`. -/
def delete (m : GoMap V) (k : String) : GoMap V :=
  ⟨fun j => if j = k then none else m.get j⟩

/-- The entries a `range` over `m` visits, in the order it visits them: exactly the
entries of the map. The language fixes nothing else about the order. -/
def RangeOrder (m : GoMap V) (order : List (String × V)) : Prop :=
  ∀ k v, (k, v) ∈ order ↔ m.get k = some v

end GoMap

/-! ## The served request and the world a handler acts on -/

/-- The fields of `http.Request` the sources read or write: `r.Method`, `r.URL.Path`,
`r.RemoteAddr` and `r.Host`. -/
structure Request where
  Method : String
  Path : String
  RemoteAddr : String
  Host : String := ""

/-- The response as written so far through an `http.ResponseWriter`: the header map, the
status line once `WriteHeader` has run, and the body. -/
structure ResponseWriter where
  header : List (String × String) := []
  status : Option Nat := none
  body : String := ""

/-- Modelled from the spec: the token bucket `rate.Limiter` of `golang.org/x/time/rate`,
which is not among the sources. The spec gives it a capacity (`burst`), a refill rate in
tokens per second (`limit`), a current token count and the time of the last refill
(`none` before the first check). Time is in nanoseconds and `tokens` counts billionths
of a token, so that the continuous refill `elapsed * limit` is exact; the rounding of the
floating-point count the library keeps is not modelled. -/
structure Limiter where
  limit : Int
  burst : Int
  tokens : Int
  last : Option Int

/-- The struct `client` declared inside `RateLimiter`: the bucket and the time of the
last check, in nanoseconds. -/
structure client where
  limiter : Limiter
  lastSeen : Int

/-- One call of `log.Printf`: the format and its arguments. -/
structure LogLine where
  format : String
  args : List String

/-- Everything a handler can read or change: the clock (`time.Now()`, in nanoseconds),
the response being written, the process log, and the `clients` map captured by the
closures of `RateLimiter`. -/
structure World where
  now : Int
  resp : ResponseWriter := {}
  log : List LogLine := []
  clients : GoMap client := GoMap.empty

/-- The behaviour of a non-nil `http.Handler`: `ServeHTTP(w, r)`. -/
abbrev Handler := Request → World → World

/-- The type `Middleware func(http.Handler) http.Handler`. -/
abbrev Middleware := Handler → Handler

/-! ## Package net/http, as far as the sources use it -/

/-- Modelled from the spec: `Header().Set(key, value)` of net/http, which is not among
the sources: the value replaces whatever the key held. -/
def headerSet (header : List (String × String)) (key value : String) :
    List (String × String) :=
  header.filter (fun e => e.1 != key) ++ [(key, value)]

/-- Modelled from the spec: `Header().Get(key)` of net/http. -/
def headerGet (header : List (String × String)) (key : String) : Option String :=
  (header.find? (fun e => e.1 == key)).map Prod.snd

/-- The call `w.Header().Set(key, value)`. -/
def SetHeader (w : World) (key value : String) : World :=
  { w with resp := { w.resp with header := headerSet w.resp.header key value } }

/-- Modelled from the spec: `w.WriteHeader(code)` of net/http: the first status written
is the status of the response. -/
def WriteHeader (w : World) (code : Nat) : World :=
  { w with resp := { w.resp with status := some (w.resp.status.getD code) } }

/-- Modelled from the spec: `w.Write(data)` of net/http: the status is 200 when none was
written before, and the data is appended to the body. -/
def Write (w : World) (data : String) : World :=
  let w1 := WriteHeader w 200
  { w1 with resp := { w1.resp with body := w1.resp.body ++ data } }

/-- Modelled from the spec: `http.Error(w, msg, code)` of net/http: a plain-text response
with the fixed status `code` whose body is the message. -/
def Error (w : World) (msg : String) (code : Nat) : World :=
  Write (WriteHeader (SetHeader w "Content-Type" "text/plain; charset=utf-8") code) msg

/-- Modelled from the spec: `http.NotFound(w, r)` of net/http: the 404 reply. -/
def NotFound (w : World) (_r : Request) : World :=
  Error w "404 page not found" 404

/-- Modelled from the spec: the server of net/http hands every request a response
writer of its own, with nothing written yet. -/
def Serve (handler : Handler) (r : Request) (w : World) : World :=
  handler r { w with resp := {} }

/-! ## Package golang.org/x/time/rate, as far as the sources use it -/

/-- The number of billionths in one token. -/
def tokenUnit : Int := 1000000000

/-- Modelled from the spec: `rate.NewLimiter(r, b)`: a fresh bucket at full capacity. -/
def NewLimiter (limit burst : Int) : Limiter :=
  { limit := limit, burst := burst, tokens := burst * tokenUnit, last := none }

/-- Modelled from the spec: `Allow` at the clock reading `now`: refill in proportion to
the elapsed time, capped at the capacity, then deduct one token when one is available
(`true`, the deduction retained) and deduct nothing otherwise (`false`). -/
def Limiter.Allow (lim : Limiter) (now : Int) : Bool × Limiter :=
  let elapsed : Int := match lim.last with
    | none => 0
    | some t => max 0 (now - t)
  let refilled := min (lim.burst * tokenUnit) (lim.tokens + elapsed * lim.limit)
  if tokenUnit ≤ refilled then
    (true, { lim with tokens := refilled - tokenUnit, last := some now })
  else
    (false, { lim with tokens := refilled, last := some now })

/-- The value of a Go `int` expression whose mathematical value is `x`, on a 64 bit
platform: two-complement wrap-around. -/
def wrapInt64 (x : Int) : Int := (x + 2 ^ 63) % 2 ^ 64 - 2 ^ 63

/-- The constant `time.Minute`, in nanoseconds. -/
def Minute : Int := 60 * 1000000000

/-! ## pkg/router -/

/-- The struct `Router`: the route map (a registered handler may be the nil interface)
and the middleware slice. -/
structure Router where
  routes : GoMap (Option Handler)
  middlewares : List Middleware

namespace Router

/-- The constructor `router.New`. -/
def New : Router := { routes := GoMap.empty, middlewares := [] }

/-- The method `Use`: append to the middleware slice. -/
def Use (r : Router) (middleware : Middleware) : Router :=
  { r with middlewares := r.middlewares ++ [middleware] }

/-- The method `Handle`: `r.routes[pattern] = handler`. -/
def Handle (r : Router) (pattern : String) (handler : Option Handler) : Router :=
  { r with routes := r.routes.set pattern handler }

/-- The method `HandleFunc`: `r.routes[pattern] = handlerFunc`; the converted function
value is a non-nil interface. -/
def HandleFunc (r : Router) (pattern : String) (handlerFunc : Handler) : Router :=
  { r with routes := r.routes.set pattern (some handlerFunc) }

/-- The loop `for pattern, handler := range r.routes` of `findHandler`, over the entries
in visiting order: the first pattern ending in `/*` whose stripped part the path begins
with decides; running out of entries is the final `return nil`. -/
def wildcardLoop (path : String) : List (String × Option Handler) → Option Handler
  | [] => none
  | (pattern, handler) :: rest =>
    if HasSuffix pattern "/*" then
      if HasPrefix path (TrimSuffix pattern "/*") then handler
      else wildcardLoop path rest
    else wildcardLoop path rest

/-- The method `findHandler`: the exact lookup first, then the wildcard loop in the
visiting order `order` of the route map. The result `none` is the nil handler. -/
def findHandler (r : Router) (order : List (String × Option Handler)) (path : String) :
    Option Handler :=
  match r.routes.get path with
  | some handler => handler
  | none => wildcardLoop path order

/-- The loop `for i := len(r.middlewares) - 1; i >= 0; i--` of `ServeHTTP`, with `n`
iterations left: the next one wraps the handler in `r.middlewares[n - 1]`. -/
def applyMiddlewares (middlewares : List Middleware) : Nat → Handler → Handler
  | 0, handler => handler
  | i + 1, handler =>
    applyMiddlewares middlewares i
      (match middlewares.get? i with
       | some middleware => middleware handler
       | none => handler)

/-- The method `ServeHTTP`: find the handler, reply 404 when it is nil, otherwise wrap it
in the middlewares from the last to the first and run the result. -/
def ServeHTTP (r : Router) (order : List (String × Option Handler)) (req : Request)
    (w : World) : World :=
  match r.findHandler order req.Path with
  | none => NotFound w req
  | some handler => applyMiddlewares r.middlewares r.middlewares.length handler req w

end Router

/-! ## internal/middleware -/

/-- The call `log.Printf(format, args...)`. -/
def Printf (w : World) (format : String) (args : List String) : World :=
  { w with log := w.log ++ [{ format := format, args := args }] }

/-- The middleware `Logger`: a line before and a line after the wrapped handler, the
second with the time elapsed (`time.Since(start)`, shown in nanoseconds). -/
def Logger : Middleware := fun next r w =>
  let start := w.now
  let w1 := Printf w "[%s] %s %s" [r.Method, r.Path, r.RemoteAddr]
  let w2 := next r w1
  Printf w2 "[%s] %s completed in %v" [r.Method, r.Path, toString (w2.now - start)]

/-- The middleware `CORS`: the three headers, then status 200 and nothing else for
`OPTIONS`, the wrapped handler for every other method. -/
def CORS : Middleware := fun next r w =>
  let w1 := SetHeader w "Access-Control-Allow-Origin" "*"
  let w2 := SetHeader w1 "Access-Control-Allow-Methods" "GET, POST, PUT, DELETE, OPTIONS"
  let w3 := SetHeader w2 "Access-Control-Allow-Headers" "Content-Type, Authorization"
  if r.Method = "OPTIONS" then WriteHeader w3 200 else next r w3

/-- The check of `RateLimiter` for the client key `ip` (lines 67 to 80): look the client
up, create it with a bucket of rate `requestsPerSecond` and capacity
`requestsPerSecond*2` when it is absent, set `lastSeen` to the clock, then ask the bucket.
The result is the answer of `Allow` and the world with the client stored. -/
def rateLimitCheck (requestsPerSecond : Int) (ip : String) (w : World) : Bool × World :=
  let c : client := match w.clients.get ip with
    | some c => c
    | none =>
      { limiter := NewLimiter requestsPerSecond (wrapInt64 (requestsPerSecond * 2)),
        lastSeen := 0 }
  let c1 : client := { c with lastSeen := w.now }
  let res := c1.limiter.Allow w.now
  (res.1, { w with clients := w.clients.set ip { c1 with limiter := res.2 } })

/-- The middleware returned by `RateLimiter(requestsPerSecond)`: the check for
`r.RemoteAddr`, then the 429 reply when the bucket refuses and the wrapped handler when
it allows. -/
def RateLimiter (requestsPerSecond : Int) : Middleware := fun next r w =>
  let res := rateLimitCheck requestsPerSecond r.RemoteAddr w
  if !res.1 then Error res.2 "Rate limit exceeded" 429 else next r res.2

/-- One tick of the cleanup goroutine of `RateLimiter`: under the lock, range over the
clients in the visiting order `order` and delete every one whose `lastSeen` lies more
than ten minutes before the clock. -/
def cleanupTick (order : List (String × client)) (w : World) : World :=
  let sweep := fun (clients : GoMap client) (e : String × client) =>
    if w.now - e.2.lastSeen > 10 * Minute then clients.delete e.1 else clients
  { w with clients := List.foldl sweep w.clients order }

/-! ## internal/config -/

/-- The struct `ServerConfig`; the timeouts are durations in nanoseconds. -/
structure ServerConfig where
  Address : String
  ReadTimeout : Int := 0
  WriteTimeout : Int := 0
  IdleTimeout : Int := 0

/-- The struct `Service`. -/
structure Service where
  Name : String
  Path : String
  Target : String

/-- The struct `Config`. -/
structure Config where
  Server : ServerConfig
  Services : List Service
  RateLimit : Int

/-- The loop over `c.Services` of `Validate`: the first service with an empty field
gives the error. -/
def validateServices : List Service → Except String Unit
  | [] => .ok ()
  | svc :: rest =>
    if svc.Name = "" then .error "service name is required"
    else if svc.Path = "" then .error ("service path is required for " ++ svc.Name)
    else if svc.Target = "" then .error ("service target is required for " ++ svc.Name)
    else validateServices rest

/-- The method `Validate` of `Config`. -/
def Config.Validate (c : Config) : Except String Unit :=
  if c.Server.Address = "" then .error "server address is required"
  else if c.Services.length = 0 then .error "at least one service must be configured"
  else validateServices c.Services

/-- The constant `time.Second`, in nanoseconds. -/
def Second : Int := 1000000000

/-- The function `defaultConfig`. -/
def defaultConfig : Config :=
  { Server :=
      { Address := ":8080",
        ReadTimeout := 15 * Second,
        WriteTimeout := 15 * Second,
        IdleTimeout := 60 * Second },
    Services :=
      [{ Name := "example-service", Path := "/api/v1/*", Target := "http://localhost:9000" }],
    RateLimit := 100 }

/-- The library functions `Load` is built on, which are not among the sources:
`os.Getenv`, whether `os.Stat` of a path fails with an error that `os.IsNotExist`
accepts, `os.ReadFile`, and `json.Unmarshal` into a `Config`. -/
structure Files where
  Getenv : String → String
  NotExist : String → Bool
  ReadFile : String → Except String String
  Unmarshal : String → Except String Config

/-- The path `Load` reads: the variable `CONFIG_PATH`, or `config.json` when it is
empty. -/
def configPath (fs : Files) : String :=
  if fs.Getenv "CONFIG_PATH" = "" then "config.json" else fs.Getenv "CONFIG_PATH"

/-- The function `Load`: the default configuration when the file does not exist;
otherwise read the file, parse it and validate the result, every failure being an error
and no configuration. -/
def Load (fs : Files) : Except String Config :=
  if fs.NotExist (configPath fs) then .ok defaultConfig
  else
    match fs.ReadFile (configPath fs) with
    | .error err => .error ("failed to read config file: " ++ err)
    | .ok data =>
      match fs.Unmarshal data with
      | .error err => .error ("failed to parse config file: " ++ err)
      | .ok cfg =>
        match cfg.Validate with
        | .error err => .error ("invalid configuration: " ++ err)
        | .ok _ => .ok cfg

/-! ## internal/gateway -/

/-- The part of a parsed `url.URL` the gateway reads. -/
structure URL where
  Host : String

/-- The two library functions the gateway is built on, which are not among the sources:
`url.Parse`, and the transport of the reverse proxy made by
`httputil.NewSingleHostReverseProxy`, which either writes the response of the backend or
fails with an error text. -/
structure Backend where
  parse : String → Except String URL
  transport : URL → Request → World → Except String World

/-- The struct `Gateway`. -/
structure Gateway where
  config : Config
  router : Router

namespace Gateway

/-- The method `healthCheckHandler`. -/
def healthCheckHandler : Handler := fun _ w =>
  Write (WriteHeader (SetHeader w "Content-Type" "application/json") 200)
    "\x7b\"status\":\"ok\",\"service\":\"api-gateway\"\x7d"

/-- The handler `addServiceRoute` registers: set `r.Host` to the host of the target and
run the proxy, whose `ErrorHandler` turns a transport failure into the 503 reply. -/
def proxyHandler (b : Backend) (targetURL : URL) : Handler := fun r w =>
  match b.transport targetURL { r with Host := targetURL.Host } w with
  | .ok w1 => w1
  | .error err => Error w ("Service unavailable: " ++ err) 503

/-- The method `addServiceRoute`: fail when the target does not parse, otherwise register
the proxy handler under the path of the service. -/
def addServiceRoute (b : Backend) (gw : Gateway) (service : Service) :
    Except String Gateway :=
  match b.parse service.Target with
  | .error err => .error ("invalid target URL: " ++ err)
  | .ok targetURL =>
    .ok { gw with router := gw.router.Handle service.Path (some (proxyHandler b targetURL)) }

/-- The loop over `gw.config.Services` of `setupRoutes`. -/
def addServiceRoutes (b : Backend) (gw : Gateway) : List Service → Except String Gateway
  | [] => .ok gw
  | service :: rest =>
    match addServiceRoute b gw service with
    | .error err =>
      .error ("failed to add route for service " ++ service.Name ++ ": " ++ err)
    | .ok gw1 => addServiceRoutes b gw1 rest

/-- The method `setupRoutes`: the three global middlewares, the health route, then one
route per configured service. -/
def setupRoutes (b : Backend) (gw : Gateway) : Except String Gateway :=
  let r1 := gw.router.Use Logger
  let r2 := r1.Use CORS
  let r3 := r2.Use (RateLimiter gw.config.RateLimit)
  let r4 := r3.HandleFunc "/health" healthCheckHandler
  addServiceRoutes b { gw with router := r4 } gw.config.Services

/-- The constructor `gateway.New`; the argument `none` is the nil pointer. -/
def New (b : Backend) (cfg : Option Config) : Except String Gateway :=
  match cfg with
  | none => .error "config cannot be nil"
  | some c =>
    match setupRoutes b { config := c, router := Router.New } with
    | .error err => .error ("failed to setup routes: " ++ err)
    | .ok gw => .ok gw

end Gateway

/-! ## Sequences of registrations, and the handlers used as concrete inputs -/

/-- One call on a router during setup: `Use`, `Handle` or `HandleFunc`. -/
inductive Op where
  | use (middleware : Middleware)
  | handle (pattern : String) (handler : Option Handler)
  | handleFunc (pattern : String) (handlerFunc : Handler)

/-- The router after the call. -/
def Op.apply (r : Router) : Op → Router
  | .use middleware => r.Use middleware
  | .handle pattern handler => r.Handle pattern handler
  | .handleFunc pattern handlerFunc => r.HandleFunc pattern handlerFunc

/-- The pattern the call registers, if it registers one. -/
def Op.pattern : Op → Option String
  | .use _ => none
  | .handle pattern _ => some pattern
  | .handleFunc pattern _ => some pattern

/-- The router after a sequence of calls, the first call first. -/
def runOps (r : Router) (ops : List Op) : Router := ops.foldl Op.apply r

/-- The middlewares a sequence of calls passes to `Use`, in call order. -/
def usedMiddlewares : List Op → List Middleware
  | [] => []
  | .use middleware :: rest => middleware :: usedMiddlewares rest
  | .handle _ _ :: rest => usedMiddlewares rest
  | .handleFunc _ _ :: rest => usedMiddlewares rest

/-- A pattern of the route map is a wildcard candidate for a path: it is registered with
`handler`, ends in `/*`, and the path begins with what is left without the `/*`. -/
def Candidate (r : Router) (path pattern : String) (handler : Option Handler) : Prop :=
  r.routes.get pattern = some handler ∧ HasSuffix pattern "/*" = true ∧
    HasPrefix path (TrimSuffix pattern "/*") = true

/-- A terminal handler that replies with the given status and nothing else. -/
def replyWith (code : Nat) : Handler := fun _ w => WriteHeader w code

/-- A router with a wildcard route and an exact route under the same stem. -/
def shadowRouter : Router :=
  (Router.New.Handle "/api/*" (some (replyWith 201))).Handle "/api/x" (some (replyWith 202))

/-- A visiting order of the routes of `shadowRouter`. -/
def shadowOrder : List (String × Option Handler) :=
  [("/api/x", some (replyWith 202)), ("/api/*", some (replyWith 201))]

/-- A router with two wildcard routes, one stem extending the other. -/
def overlapRouter : Router :=
  (Router.New.Handle "/a/*" (some (replyWith 201))).Handle "/a/b/*" (some (replyWith 202))

/-- A visiting order of the routes of `overlapRouter`: the longer pattern first. -/
def overlapOrder : List (String × Option Handler) :=
  [("/a/b/*", some (replyWith 202)), ("/a/*", some (replyWith 201))]

/-- The router of the default configuration: the health route and one wildcard route. -/
def serviceRouter : Router :=
  (Router.New.HandleFunc "/health" (replyWith 200)).Handle "/api/v1/*" (some (replyWith 201))

/-- A visiting order of the routes of `serviceRouter`. -/
def serviceOrder : List (String × Option Handler) :=
  [("/api/v1/*", some (replyWith 201)), ("/health", some (replyWith 200))]

/-- A router on which `Handle("/x", nil)` was called. -/
def nilRouter : Router := Router.New.Handle "/x" none

/-- The visiting order of the one route of `nilRouter`. -/
def nilOrder : List (String × Option Handler) := [("/x", none)]

/-- The world after the server has served the requests in turn, each with a response
writer of its own. -/
def serveAll (handler : Handler) (reqs : List Request) (w : World) : World :=
  reqs.foldl (fun v r => Serve handler r v) w

/-- The bucket of rate `n` and capacity `2 * n` after `k` checks at the instant `t`,
starting full: one token is gone per check until none is left. -/
def bucketAfter (n t : Int) (k : Nat) : Limiter :=
  { limit := n, burst := 2 * n, tokens := max (2 * n - k) 0 * tokenUnit, last := some t }

/-- The state of the world after `k` checks of the client `ip` at the instant `t`: the
clock reads `t`, and the client is absent before its first check and holds
`bucketAfter n t k` afterwards. -/
def BurstState (n t : Int) (ip : String) (k : Nat) (w : World) : Prop :=
  w.now = t ∧
    match k with
    | 0 => w.clients.get ip = none
    | j + 1 => ∃ c, w.clients.get ip = some c ∧ c.limiter = bucketAfter n t (j + 1)

/-- A request of the client `10.0.0.1:5000` for a path under `/api/v1`. -/
def sampleRequest : Request :=
  { Method := "GET", Path := "/api/v1/orders/42", RemoteAddr := "10.0.0.1:5000" }

/-- A configuration is malformed: the server address is empty, or no service is
configured, or a service has an empty name, path or target. -/
def Config.Malformed (c : Config) : Prop :=
  c.Server.Address = "" ∨ c.Services = [] ∨
    ∃ svc ∈ c.Services, svc.Name = "" ∨ svc.Path = "" ∨ svc.Target = ""

/-- A configuration with an empty server address and no service. -/
def emptyConfig : Config :=
  { Server := { Address := "" }, Services := [], RateLimit := 0 }

/-- A configuration whose one service has no name. -/
def namelessConfig : Config :=
  { Server := { Address := ":8080" },
    Services := [{ Name := "", Path := "/api/v1/*", Target := "http://localhost:9000" }],
    RateLimit := 100 }

/-- A file system whose `config.json` exists and parses to `namelessConfig`. -/
def namelessFiles : Files :=
  { Getenv := fun _ => "",
    NotExist := fun _ => false,
    ReadFile := fun _ => .ok "config",
    Unmarshal := fun _ => .ok namelessConfig }

/-- A backend whose `url.Parse` accepts every target and whose transport writes
nothing. -/
def echoBackend : Backend :=
  { parse := fun target => .ok { Host := target },
    transport := fun _ _ w => .ok w }

/-- A client store with a client last seen at time 0 and one last seen eleven minutes
later, each with a full bucket of rate 2. -/
def twoClients : GoMap client :=
  (GoMap.empty.set "10.0.0.1:5000" { limiter := NewLimiter 2 4, lastSeen := 0 }).set
    "10.0.0.2:6000" { limiter := NewLimiter 2 4, lastSeen := 11 * Minute }

/-- A visiting order of `twoClients`. -/
def twoClientsOrder : List (String × client) :=
  [("10.0.0.2:6000", { limiter := NewLimiter 2 4, lastSeen := 11 * Minute }),
   ("10.0.0.1:5000", { limiter := NewLimiter 2 4, lastSeen := 0 })]

/-! ## Lemmas: strings and maps -/

theorem HasPrefix_append (pre rest : String) : HasPrefix (pre ++ rest) pre = true := by
  simp [HasPrefix, String.data_append]

theorem HasPrefix_self (s : String) : HasPrefix s s = true := by
  simp [HasPrefix]

theorem HasSuffix_append (pre suf : String) : HasSuffix (pre ++ suf) suf = true := by
  simp [HasSuffix, String.data_append]

theorem TrimSuffix_append (pre suf : String) : TrimSuffix (pre ++ suf) suf = pre := by
  simp [TrimSuffix, HasSuffix_append, String.data_append]

theorem GoMap.get_set (m : GoMap V) (k j : String) (v : V) :
    (m.set k v).get j = if j = k then some v else m.get j := rfl

theorem GoMap.get_delete (m : GoMap V) (k j : String) :
    (m.delete k).get j = if j = k then none else m.get j := rfl

theorem GoMap.rangeOrder_empty : (GoMap.empty : GoMap V).RangeOrder [] := by
  intro k v
  simp [GoMap.empty]

theorem GoMap.rangeOrder_set (m : GoMap V) (order : List (String × V)) (k : String) (v : V)
    (hord : m.RangeOrder order) (hk : m.get k = none) :
    (m.set k v).RangeOrder ((k, v) :: order) := by
  intro j u
  rw [GoMap.get_set, List.mem_cons, hord j u]
  by_cases hj : j = k
  · subst hj
    simp [hk]
    exact eq_comm
  · simp [hj]

theorem replyWith_ne {a b : Nat} (hab : a ≠ b) : replyWith a ≠ replyWith b := by
  intro h
  have h1 := congrArg (fun f : Handler => (f ⟨"", "", "", ""⟩ { now := 0 }).resp.status) h
  simp [replyWith, WriteHeader] at h1
  exact hab h1

/-! ## Lemmas: the router -/

namespace Router

/-- What the wildcard loop returns: nil when no visited entry is a candidate, and
otherwise the handler of a visited candidate. -/
theorem wildcardLoop_cases (path : String) (order : List (String × Option Handler)) :
    (wildcardLoop path order = none ∧
      ∀ p h, (p, h) ∈ order → HasSuffix p "/*" = true →
        HasPrefix path (TrimSuffix p "/*") = false) ∨
    (∃ p h, (p, h) ∈ order ∧ HasSuffix p "/*" = true ∧
      HasPrefix path (TrimSuffix p "/*") = true ∧ wildcardLoop path order = h) := by
  induction order with
  | nil => left; simp [wildcardLoop]
  | cons e rest ih =>
    obtain ⟨pattern, handler⟩ := e
    by_cases hs : HasSuffix pattern "/*" = true
    · by_cases hp : HasPrefix path (TrimSuffix pattern "/*") = true
      · right
        exact ⟨pattern, handler, by simp, hs, hp, by simp [wildcardLoop, hs, hp]⟩
      · have hloop : wildcardLoop path ((pattern, handler) :: rest) = wildcardLoop path rest := by
          simp [wildcardLoop, hs, hp]
        rcases ih with ⟨hn, hall⟩ | ⟨p, h, hmem, h1, h2, h3⟩
        · left
          refine ⟨by rw [hloop, hn], ?_⟩
          intro p h hmem hsp
          rcases List.mem_cons.mp hmem with heq | hmem
          · cases heq; simpa using hp
          · exact hall p h hmem hsp
        · right
          exact ⟨p, h, List.mem_cons_of_mem _ hmem, h1, h2, by rw [hloop, h3]⟩
    · have hloop : wildcardLoop path ((pattern, handler) :: rest) = wildcardLoop path rest := by
        simp [wildcardLoop, hs]
      rcases ih with ⟨hn, hall⟩ | ⟨p, h, hmem, h1, h2, h3⟩
      · left
        refine ⟨by rw [hloop, hn], ?_⟩
        intro p h hmem hsp
        rcases List.mem_cons.mp hmem with heq | hmem
        · cases heq; exact absurd hsp hs
        · exact hall p h hmem hsp
      · right
        exact ⟨p, h, List.mem_cons_of_mem _ hmem, h1, h2, by rw [hloop, h3]⟩

theorem findHandler_exact (r : Router) (order : List (String × Option Handler))
    (path : String) (h : Option Handler) (hget : r.routes.get path = some h) :
    r.findHandler order path = h := by
  simp [findHandler, hget]

theorem findHandler_loop (r : Router) (order : List (String × Option Handler))
    (path : String) (hget : r.routes.get path = none) :
    r.findHandler order path = wildcardLoop path order := by
  simp [findHandler, hget]

/-- With the path not registered, the result is nil with no candidate in the map, or the
handler of a candidate of the map. -/
theorem findHandler_cases (r : Router) (order : List (String × Option Handler))
    (hord : r.routes.RangeOrder order) (path : String) (hget : r.routes.get path = none) :
    (r.findHandler order path = none ∧ ∀ p h, ¬ Candidate r path p h) ∨
    (∃ p h, Candidate r path p h ∧ r.findHandler order path = h) := by
  rw [findHandler_loop r order path hget]
  rcases wildcardLoop_cases path order with ⟨hn, hall⟩ | ⟨p, h, hmem, h1, h2, h3⟩
  · left
    refine ⟨hn, ?_⟩
    rintro p h ⟨hreg, hs, hp⟩
    have := hall p h ((hord p h).mpr hreg) hs
    rw [hp] at this
    exact Bool.noConfusion this
  · right
    exact ⟨p, h, ⟨(hord p h).mp hmem, h1, h2⟩, h3⟩

theorem runOps_routes_get (ops : List Op) (r : Router) (P : String)
    (hops : ∀ op ∈ ops, op.pattern ≠ some P) :
    (runOps r ops).routes.get P = r.routes.get P := by
  induction ops generalizing r with
  | nil => rfl
  | cons op rest ih =>
    have hrest : ∀ o ∈ rest, o.pattern ≠ some P := fun o ho => hops o (List.mem_cons_of_mem _ ho)
    have hop := hops op (List.mem_cons_self _ _)
    show (runOps (op.apply r) rest).routes.get P = _
    rw [ih (op.apply r) hrest]
    cases op with
    | use m => rfl
    | handle pattern handler =>
      have : P ≠ pattern := fun h => hop (by simp [Op.pattern, h])
      simp [Op.apply, Handle, GoMap.get_set, this]
    | handleFunc pattern f =>
      have : P ≠ pattern := fun h => hop (by simp [Op.pattern, h])
      simp [Op.apply, HandleFunc, GoMap.get_set, this]

theorem runOps_middlewares (ops : List Op) (r : Router) :
    (runOps r ops).middlewares = r.middlewares ++ usedMiddlewares ops := by
  induction ops generalizing r with
  | nil => simp [runOps, usedMiddlewares]
  | cons op rest ih =>
    show (runOps (op.apply r) rest).middlewares = _
    rw [ih (op.apply r)]
    cases op <;> simp [Op.apply, Use, Handle, HandleFunc, usedMiddlewares]

theorem applyMiddlewares_take (middlewares : List Middleware) (n : Nat)
    (hn : n ≤ middlewares.length) (handler : Handler) :
    applyMiddlewares middlewares n handler =
      (middlewares.take n).foldr (fun m acc => m acc) handler := by
  induction n generalizing handler with
  | zero => simp [applyMiddlewares]
  | succ i ih =>
    have hi : i < middlewares.length := hn
    have htake : middlewares.take (i + 1) = middlewares.take i ++ [middlewares[i]] := by
      rw [List.take_succ, List.getElem?_eq_getElem hi]
      rfl
    rw [applyMiddlewares, ih (Nat.le_of_lt hi), List.get?_eq_get hi, htake, List.foldr_append]
    rfl

/-- The loop of `ServeHTTP` builds the right fold of the middleware slice. -/
theorem applyMiddlewares_eq_foldr (middlewares : List Middleware) (handler : Handler) :
    applyMiddlewares middlewares middlewares.length handler =
      middlewares.foldr (fun m acc => m acc) handler := by
  rw [applyMiddlewares_take middlewares middlewares.length (Nat.le_refl _), List.take_length]

theorem ServeHTTP_found (r : Router) (order : List (String × Option Handler))
    (req : Request) (w : World) (h : Handler)
    (hres : r.findHandler order req.Path = some h) :
    r.ServeHTTP order req w = r.middlewares.foldr (fun m acc => m acc) h req w := by
  unfold ServeHTTP
  rw [hres]
  show applyMiddlewares r.middlewares r.middlewares.length h req w = _
  rw [applyMiddlewares_eq_foldr]

theorem ServeHTTP_nil (r : Router) (order : List (String × Option Handler))
    (req : Request) (w : World) (hres : r.findHandler order req.Path = none) :
    r.ServeHTTP order req w = NotFound w req := by
  unfold ServeHTTP
  rw [hres]

theorem shadowOrder_rangeOrder : shadowRouter.routes.RangeOrder shadowOrder := by
  refine GoMap.rangeOrder_set _ _ _ _ (GoMap.rangeOrder_set _ _ _ _ GoMap.rangeOrder_empty rfl) ?_
  simp [New, Handle, GoMap.get_set, GoMap.empty]

theorem overlapOrder_rangeOrder : overlapRouter.routes.RangeOrder overlapOrder := by
  refine GoMap.rangeOrder_set _ _ _ _ (GoMap.rangeOrder_set _ _ _ _ GoMap.rangeOrder_empty rfl) ?_
  simp [New, Handle, GoMap.get_set, GoMap.empty]

theorem serviceOrder_rangeOrder : serviceRouter.routes.RangeOrder serviceOrder := by
  refine GoMap.rangeOrder_set _ _ _ _ (GoMap.rangeOrder_set _ _ _ _ GoMap.rangeOrder_empty rfl) ?_
  simp [New, HandleFunc, GoMap.get_set, GoMap.empty]

theorem serviceRouter_get (p : String) (h : Option Handler)
    (hget : serviceRouter.routes.get p = some h) :
    (p = "/api/v1/*" ∧ h = some (replyWith 201)) ∨ (p = "/health" ∧ h = some (replyWith 200)) := by
  simp only [serviceRouter, New, Handle, HandleFunc, GoMap.get_set, GoMap.empty] at hget
  split_ifs at hget with h1 h2
  · exact Or.inl ⟨h1, (Option.some.inj hget).symm⟩
  · exact Or.inr ⟨h2, (Option.some.inj hget).symm⟩

theorem nilOrder_rangeOrder : nilRouter.routes.RangeOrder nilOrder :=
  GoMap.rangeOrder_set _ _ _ _ GoMap.rangeOrder_empty rfl

end Router

/-! ## Lemmas: the rate limiter -/

theorem wrapInt64_double (n : Int) (hn0 : 0 ≤ n) (hn : n < 2 ^ 62) :
    wrapInt64 (n * 2) = 2 * n := by
  unfold wrapInt64
  omega

theorem Allow_bucketAfter (n t : Int) (k : Nat) (hn0 : 0 ≤ n) :
    (bucketAfter n t k).Allow t = (decide ((k : Int) < 2 * n), bucketAfter n t (k + 1)) := by
  have e0 : max 0 (t - t) * n = 0 := by simp
  simp only [Limiter.Allow, bucketAfter, e0, add_zero]
  by_cases hk : (k : Int) < 2 * n
  · have hT : max (2 * n - (k : Int)) 0 = 2 * n - k := max_eq_left (by omega)
    have hT1 : max (2 * n - ((k + 1 : Nat) : Int)) 0 = 2 * n - k - 1 := by
      rw [max_eq_left (by push_cast; omega)]; push_cast; ring
    have hmin : min (2 * n * tokenUnit) ((2 * n - k) * tokenUnit) = (2 * n - k) * tokenUnit := by
      apply min_eq_right
      simp only [tokenUnit]; omega
    have hle : tokenUnit ≤ (2 * n - k) * tokenUnit := by
      simp only [tokenUnit]; omega
    rw [hT, hT1, hmin, if_pos hle]
    simp only [hk, decide_True]
    congr 2
    ring
  · have hT : max (2 * n - (k : Int)) 0 = 0 := max_eq_right (by omega)
    have hT1 : max (2 * n - ((k + 1 : Nat) : Int)) 0 = 0 := max_eq_right (by push_cast; omega)
    have hmin : min (2 * n * tokenUnit) (0 * tokenUnit) = 0 := by
      rw [zero_mul]
      apply min_eq_right
      simp only [tokenUnit]; omega
    have hle : ¬ tokenUnit ≤ (0 : Int) := by simp [tokenUnit]
    rw [hT, hT1, hmin, if_neg hle]
    simp only [hk, decide_False, zero_mul]

theorem Allow_fresh (n t : Int) (hn0 : 0 ≤ n) :
    (NewLimiter n (2 * n)).Allow t = (decide ((0 : Int) < 2 * n), bucketAfter n t 1) := by
  simp only [Limiter.Allow, NewLimiter, bucketAfter, zero_mul, add_zero, min_self]
  by_cases hk : (0 : Int) < 2 * n
  · have hle : tokenUnit ≤ 2 * n * tokenUnit := by
      simp only [tokenUnit]; omega
    have hT1 : max (2 * n - ((1 : Nat) : Int)) 0 = 2 * n - 1 := by
      rw [max_eq_left (by push_cast; omega)]; push_cast; ring
    rw [if_pos hle, hT1]
    simp only [hk, decide_True]
    congr 2
    ring
  · have hle : ¬ tokenUnit ≤ 2 * n * tokenUnit := by
      simp only [tokenUnit]; omega
    have hT1 : max (2 * n - ((1 : Nat) : Int)) 0 = 0 := max_eq_right (by push_cast; omega)
    have hz : 2 * n * tokenUnit = 0 := by
      have : n = 0 := by omega
      subst this
      simp
    rw [if_neg hle, hT1, hz]
    simp only [hk, decide_False, zero_mul]

theorem rateLimitCheck_burst (n t : Int) (ip : String) (k : Nat) (w : World)
    (hn0 : 0 ≤ n) (hn : n < 2 ^ 62) (hst : BurstState n t ip k w) :
    (rateLimitCheck n ip w).1 = decide ((k : Int) < 2 * n) ∧
    BurstState n t ip (k + 1) (rateLimitCheck n ip w).2 := by
  obtain ⟨hnow, hcl⟩ := hst
  cases k with
  | zero =>
    simp only at hcl
    simp only [rateLimitCheck, hcl, wrapInt64_double n hn0 hn, hnow, Allow_fresh n t hn0]
    refine ⟨by simp, rfl, ?_⟩
    exact ⟨⟨bucketAfter n t 1, t⟩, by simp [GoMap.get_set], rfl⟩
  | succ j =>
    obtain ⟨c, hget, hlim⟩ := hcl
    simp only [rateLimitCheck, hget, hlim, hnow, Allow_bucketAfter n t (j + 1) hn0]
    refine ⟨by simp, rfl, ?_⟩
    exact ⟨⟨bucketAfter n t (j + 1 + 1), t⟩, by simp [GoMap.get_set], rfl⟩

theorem BurstState_congr (n t : Int) (ip : String) (k : Nat) (w1 w2 : World)
    (hnow : w2.now = w1.now) (hcl : w2.clients = w1.clients)
    (hst : BurstState n t ip k w1) : BurstState n t ip k w2 := by
  unfold BurstState at hst ⊢
  rw [hnow, hcl]
  exact hst

theorem rateLimitCheck_resp (n : Int) (ip : String) (w : World) :
    (rateLimitCheck n ip w).2.resp = w.resp ∧ (rateLimitCheck n ip w).2.now = w.now ∧
    (rateLimitCheck n ip w).2.log = w.log :=
  ⟨rfl, rfl, rfl⟩

theorem Serve_RateLimiter_burst (n t : Int) (ip : String) (k : Nat) (w : World)
    (next : Handler) (r : Request) (hn0 : 0 ≤ n) (hn : n < 2 ^ 62)
    (hnext : ∀ r v, (next r v).clients = v.clients ∧ (next r v).now = v.now)
    (hr : r.RemoteAddr = ip) (hst : BurstState n t ip k w) :
    BurstState n t ip (k + 1) (Serve (RateLimiter n next) r w) := by
  have hv : BurstState n t ip k { w with resp := {} } :=
    BurstState_congr n t ip k w _ rfl rfl hst
  have hstep := (rateLimitCheck_burst n t ip k _ hn0 hn hv).2
  unfold Serve RateLimiter
  simp only [hr]
  split
  · exact BurstState_congr n t ip (k + 1) _ _ rfl rfl hstep
  · exact BurstState_congr n t ip (k + 1) _ _ (hnext _ _).2 (hnext _ _).1 hstep

theorem serveAll_burst (n t : Int) (ip : String) (next : Handler) (hn0 : 0 ≤ n)
    (hn : n < 2 ^ 62)
    (hnext : ∀ r v, (next r v).clients = v.clients ∧ (next r v).now = v.now)
    (reqs : List Request) (hip : ∀ r ∈ reqs, r.RemoteAddr = ip) (k : Nat) (w : World)
    (hst : BurstState n t ip k w) :
    BurstState n t ip (k + reqs.length) (serveAll (RateLimiter n next) reqs w) := by
  induction reqs generalizing k w with
  | nil => exact hst
  | cons r rest ih =>
    have hrest : ∀ q ∈ rest, q.RemoteAddr = ip := fun q hq => hip q (List.mem_cons_of_mem _ hq)
    have h1 := Serve_RateLimiter_burst n t ip k w next r hn0 hn hnext
      (hip r (List.mem_cons_self _ _)) hst
    have h2 := ih hrest (k + 1) _ h1
    have hlen : k + (r :: rest).length = k + 1 + rest.length := by
      simp only [List.length_cons]; omega
    rw [hlen]
    exact h2

theorem foldl_sweep_get (t : Int) (order : List (String × client)) (m : GoMap client)
    (ip : String) :
    (List.foldl (fun (clients : GoMap client) (e : String × client) =>
        if t - e.2.lastSeen > 10 * Minute then clients.delete e.1 else clients) m order).get ip =
      if ∃ e ∈ order, e.1 = ip ∧ t - e.2.lastSeen > 10 * Minute then none else m.get ip := by
  induction order generalizing m with
  | nil => simp
  | cons e rest ih =>
    rw [List.foldl_cons, ih]
    by_cases hrest : ∃ x ∈ rest, x.1 = ip ∧ t - x.2.lastSeen > 10 * Minute
    · have hall : ∃ x ∈ e :: rest, x.1 = ip ∧ t - x.2.lastSeen > 10 * Minute := by
        obtain ⟨x, hx, hx2⟩ := hrest
        exact ⟨x, List.mem_cons_of_mem _ hx, hx2⟩
      rw [if_pos hrest, if_pos hall]
    · rw [if_neg hrest]
      by_cases he : e.1 = ip ∧ t - e.2.lastSeen > 10 * Minute
      · have hall : ∃ x ∈ e :: rest, x.1 = ip ∧ t - x.2.lastSeen > 10 * Minute :=
          ⟨e, List.mem_cons_self _ _, he⟩
        rw [if_pos hall, if_pos he.2, GoMap.get_delete, if_pos he.1.symm]
      · have hall : ¬ ∃ x ∈ e :: rest, x.1 = ip ∧ t - x.2.lastSeen > 10 * Minute := by
          rintro ⟨x, hx, hx2⟩
          rcases List.mem_cons.mp hx with hxe | hxr
          · exact he (hxe ▸ hx2)
          · exact hrest ⟨x, hxr, hx2⟩
        rw [if_neg hall]
        by_cases hst : t - e.2.lastSeen > 10 * Minute
        · have hne : ¬ ip = e.1 := fun h => he ⟨h.symm, hst⟩
          rw [if_pos hst, GoMap.get_delete, if_neg hne]
        · rw [if_neg hst]

/-- The sweep keeps exactly the clients seen within the last ten minutes. -/
theorem cleanupTick_get (order : List (String × client)) (w : World)
    (hord : w.clients.RangeOrder order) (ip : String) :
    (cleanupTick order w).clients.get ip =
      match w.clients.get ip with
      | none => none
      | some c => if w.now - c.lastSeen > 10 * Minute then none else some c := by
  show (List.foldl _ w.clients order).get ip = _
  rw [foldl_sweep_get]
  cases hget : w.clients.get ip with
  | none =>
    simp
  | some c =>
    by_cases hst : w.now - c.lastSeen > 10 * Minute
    · have hex : ∃ e ∈ order, e.1 = ip ∧ w.now - e.2.lastSeen > 10 * Minute :=
        ⟨(ip, c), (hord ip c).mpr hget, rfl, hst⟩
      simp only [if_pos hex, if_pos hst]
    · have hex : ¬ ∃ e ∈ order, e.1 = ip ∧ w.now - e.2.lastSeen > 10 * Minute := by
        rintro ⟨⟨k, c2⟩, hmem, hk, hst2⟩
        simp only at hk hst2
        subst hk
        have := (hord k c2).mp hmem
        rw [hget] at this
        cases this
        exact hst hst2
      simp only [if_neg hex, if_neg hst]

theorem twoClients_rangeOrder : twoClients.RangeOrder twoClientsOrder := by
  refine GoMap.rangeOrder_set _ _ _ _ (GoMap.rangeOrder_set _ _ _ _ GoMap.rangeOrder_empty rfl) ?_
  simp [GoMap.get_set, GoMap.empty]

/-! ## Lemmas: the configuration -/

theorem validateServices_error_iff (services : List Service) :
    (∃ err, validateServices services = .error err) ↔
      ∃ svc ∈ services, svc.Name = "" ∨ svc.Path = "" ∨ svc.Target = "" := by
  induction services with
  | nil => simp [validateServices]
  | cons svc rest ih =>
    simp only [validateServices, List.mem_cons, exists_eq_or_imp]
    by_cases h1 : svc.Name = ""
    · simp [h1]
    · by_cases h2 : svc.Path = ""
      · simp [h1, h2]
      · by_cases h3 : svc.Target = ""
        · simp [h1, h2, h3]
        · simp only [h1, h2, h3, if_false, false_or]
          exact ih

theorem Validate_error_iff (c : Config) :
    (∃ err, c.Validate = .error err) ↔ c.Malformed := by
  unfold Config.Validate Config.Malformed
  by_cases h1 : c.Server.Address = ""
  · simp [h1]
  · by_cases h2 : c.Services = []
    · simp [h1, h2]
    · have h3 : ¬ c.Services.length = 0 := fun h => h2 (List.length_eq_zero.mp h)
      simp only [h1, h2, h3, if_false, false_or]
      exact validateServices_error_iff c.Services

theorem defaultConfig_wellformed : ¬ defaultConfig.Malformed := by
  intro h
  have hv : defaultConfig.Validate = .ok () := rfl
  obtain ⟨err, herr⟩ := (Validate_error_iff defaultConfig).mpr h
  rw [hv] at herr
  cases herr

/-- A file that exists, is read and parses to a malformed configuration makes `Load`
fail. -/
theorem Load_malformed (fs : Files) (data : String) (c : Config)
    (hexists : fs.NotExist (configPath fs) = false)
    (hread : fs.ReadFile (configPath fs) = .ok data)
    (hparse : fs.Unmarshal data = .ok c) (hbad : c.Malformed) :
    ∃ err, Load fs = .error err := by
  obtain ⟨err, herr⟩ := (Validate_error_iff c).mpr hbad
  refine ⟨"invalid configuration: " ++ err, ?_⟩
  unfold Load
  simp only [hexists, hread, hparse, herr]
  rfl

/-- Whatever `Load` returns is not malformed. -/
theorem Load_wellformed (fs : Files) (c : Config) (hload : Load fs = .ok c) :
    ¬ c.Malformed := by
  unfold Load at hload
  by_cases hexists : fs.NotExist (configPath fs) = true
  · rw [if_pos hexists] at hload
    cases hload
    exact defaultConfig_wellformed
  · rw [if_neg hexists] at hload
    cases hread : fs.ReadFile (configPath fs) with
    | error err => rw [hread] at hload; cases hload
    | ok data =>
      rw [hread] at hload
      simp only at hload
      cases hparse : fs.Unmarshal data with
      | error err => rw [hparse] at hload; cases hload
      | ok cfg =>
        rw [hparse] at hload
        simp only at hload
        cases hval : cfg.Validate with
        | error err => rw [hval] at hload; cases hload
        | ok u =>
          rw [hval] at hload
          simp only [Except.ok.injEq] at hload
          subst hload
          intro hbad
          obtain ⟨err, herr⟩ := (Validate_error_iff cfg).mpr hbad
          rw [hval] at herr
          cases herr

/-! ## Lemmas: the gateway -/

namespace Gateway

theorem addServiceRoute_frame (b : Backend) (gw gw2 : Gateway) (service : Service)
    (hok : addServiceRoute b gw service = .ok gw2) :
    gw2.router.middlewares = gw.router.middlewares ∧ gw2.config = gw.config := by
  unfold addServiceRoute at hok
  cases hp : b.parse service.Target with
  | error err => rw [hp] at hok; cases hok
  | ok u =>
    rw [hp] at hok
    cases hok
    exact ⟨rfl, rfl⟩

theorem addServiceRoutes_frame (b : Backend) (services : List Service) (gw gw2 : Gateway)
    (hok : addServiceRoutes b gw services = .ok gw2) :
    gw2.router.middlewares = gw.router.middlewares ∧ gw2.config = gw.config := by
  induction services generalizing gw with
  | nil =>
    simp only [addServiceRoutes] at hok
    cases hok
    exact ⟨rfl, rfl⟩
  | cons service rest ih =>
    simp only [addServiceRoutes] at hok
    cases h1 : addServiceRoute b gw service with
    | error err => rw [h1] at hok; cases hok
    | ok gw1 =>
      rw [h1] at hok
      obtain ⟨hm, hc⟩ := ih gw1 hok
      obtain ⟨hm1, hc1⟩ := addServiceRoute_frame b gw gw1 service h1
      exact ⟨hm.trans hm1, hc.trans hc1⟩

theorem addServiceRoutes_ok_iff (b : Backend) (services : List Service) (gw : Gateway) :
    (∃ gw2, addServiceRoutes b gw services = .ok gw2) ↔
      ∀ svc ∈ services, ∃ u, b.parse svc.Target = .ok u := by
  induction services generalizing gw with
  | nil => simp [addServiceRoutes]
  | cons service rest ih =>
    simp only [addServiceRoutes, addServiceRoute, List.mem_cons, forall_eq_or_imp]
    cases hp : b.parse service.Target with
    | error err => simp
    | ok u =>
      simp only [Except.ok.injEq, exists_eq', true_and]
      exact ih _

theorem New_ok_iff (b : Backend) (cfg : Config) :
    (∃ gw, New b (some cfg) = .ok gw) ↔
      ∀ svc ∈ cfg.Services, ∃ u, b.parse svc.Target = .ok u := by
  rw [← addServiceRoutes_ok_iff b cfg.Services
    { config := cfg,
      router := (((Router.New.Use Logger).Use CORS).Use (RateLimiter cfg.RateLimit)).HandleFunc
        "/health" healthCheckHandler }]
  simp only [New, setupRoutes]
  constructor
  · rintro ⟨gw, hgw⟩
    split at hgw
    · cases hgw
    · rename_i gw1 h1
      exact ⟨gw1, h1⟩
  · rintro ⟨gw, hgw⟩
    exact ⟨gw, by rw [hgw]⟩

theorem New_middlewares (b : Backend) (cfg : Config) (gw : Gateway)
    (hok : New b (some cfg) = .ok gw) :
    gw.router.middlewares = [Logger, CORS, RateLimiter cfg.RateLimit] := by
  simp only [New] at hok
  cases h1 : setupRoutes b { config := cfg, router := Router.New } with
  | error err => rw [h1] at hok; cases hok
  | ok gw1 =>
    rw [h1] at hok
    cases hok
    unfold setupRoutes at h1
    exact (addServiceRoutes_frame b _ _ _ h1).1

end Gateway

/-! ## The claims about the router -/

open Router

/-- C1. Exact-match dispatch: on every router, after `Handle(P, h)` (or `HandleFunc(P, f)`)
and any later calls none of which registers `P` again, `findHandler(P)` returns `h`
(`f`), whatever the visiting order of the route map and whatever wildcard patterns are
registered: the exact lookup comes first. -/
theorem exact_match_dispatch (r : Router) (P : String) (h : Option Handler) (f : Handler)
    (later : List Op) (order : List (String × Option Handler))
    (hlater : ∀ op ∈ later, op.pattern ≠ some P) :
    (runOps (r.Handle P h) later).findHandler order P = h ∧
    (runOps (r.HandleFunc P f) later).findHandler order P = some f := by
  constructor
  · apply findHandler_exact
    rw [runOps_routes_get later _ P hlater]
    simp [Handle, GoMap.get_set]
  · apply findHandler_exact
    rw [runOps_routes_get later _ P hlater]
    simp [HandleFunc, GoMap.get_set]

/-- C1, at a concrete input: `/api/x` is registered after the wildcard `/api/*`, whose
stem it begins with, and other calls follow; the wildcard route is visited first. -/
theorem exact_match_dispatch_witness :
    (runOps ((Router.New.Handle "/api/*" (some (replyWith 201))).Handle "/api/x"
        (some (replyWith 202)))
      [Op.use Logger, Op.handle "/other" none]).findHandler
        [("/api/*", some (replyWith 201)), ("/api/x", some (replyWith 202)), ("/other", none)]
        "/api/x" = some (replyWith 202) :=
  (exact_match_dispatch (Router.New.Handle "/api/*" (some (replyWith 201))) "/api/x"
    (some (replyWith 202)) (replyWith 202) [Op.use Logger, Op.handle "/other" none]
    [("/api/*", some (replyWith 201)), ("/api/x", some (replyWith 202)), ("/other", none)]
    (by simp [Op.pattern])).1

/-- C2 as stated fails. In `shadowRouter` the pattern `/api/*` is registered and the path
`/api/x` begins with `/api`, yet `findHandler` returns the handler of the exact route
`/api/x`. In `overlapRouter` the pattern `/a/*` is registered and `/a/b/c` begins with
`/a`, yet under the visiting order `overlapOrder` the handler of `/a/b/*` is returned. -/
theorem wildcard_dispatch_counterexample :
    (shadowRouter.routes.get "/api/*" = some (some (replyWith 201)) ∧
      HasPrefix "/api/x" "/api" = true ∧
      shadowRouter.routes.RangeOrder shadowOrder ∧
      shadowRouter.findHandler shadowOrder "/api/x" = some (replyWith 202)) ∧
    (overlapRouter.routes.get "/a/*" = some (some (replyWith 201)) ∧
      HasPrefix "/a/b/c" "/a" = true ∧
      overlapRouter.routes.RangeOrder overlapOrder ∧
      overlapRouter.findHandler overlapOrder "/a/b/c" = some (replyWith 202)) ∧
    (some (replyWith 202) : Option Handler) ≠ some (replyWith 201) := by
  refine ⟨⟨rfl, by decide, shadowOrder_rangeOrder, rfl⟩,
    ⟨rfl, by decide, overlapOrder_rangeOrder, rfl⟩, ?_⟩
  intro h
  exact replyWith_ne (by decide) (Option.some.inj h)

/-- C2, amended. For every router, every visiting order of its route map, every registered
pattern `pre ++ "/*"` with handler `h` and every path that begins with `pre`: when the
path is not itself a registered pattern and every wildcard candidate for the path carries
the handler `h`, `findHandler(path)` returns `h`. -/
theorem wildcard_dispatch (r : Router) (order : List (String × Option Handler))
    (pre path : String) (h : Option Handler)
    (hord : r.routes.RangeOrder order)
    (hreg : r.routes.get (pre ++ "/*") = some h)
    (hpath : HasPrefix path pre = true)
    (hexact : r.routes.get path = none)
    (hsame : ∀ p h2, Candidate r path p h2 → h2 = h) :
    r.findHandler order path = h := by
  have hcand : Candidate r path (pre ++ "/*") h :=
    ⟨hreg, HasSuffix_append _ _, by rw [TrimSuffix_append]; exact hpath⟩
  rcases findHandler_cases r order hord path hexact with ⟨_, hno⟩ | ⟨p, h2, hc, hres⟩
  · exact absurd hcand (hno _ _)
  · rw [hres]
    exact hsame p h2 hc

/-- C2 amended, at a concrete input: the default route `/api/v1/*` and the path
`/api/v1/orders/42`. -/
theorem wildcard_dispatch_witness :
    serviceRouter.findHandler serviceOrder "/api/v1/orders/42" = some (replyWith 201) :=
  wildcard_dispatch serviceRouter serviceOrder "/api/v1" "/api/v1/orders/42"
    (some (replyWith 201)) serviceOrder_rangeOrder rfl (by decide) rfl
    (by
      rintro p h2 ⟨hreg, hs, _⟩
      rcases serviceRouter_get p h2 hreg with ⟨_, hh⟩ | ⟨hp, _⟩
      · exact hh
      · subst hp
        exact absurd hs (by decide))

/-- C10. Match soundness under wildcard overlap, for every router and every path.
(1) Under every visiting order, a handler returned by `findHandler(path)` is the one
registered under the path itself, or the path is not registered and the handler is
registered under a pattern ending in `/*` whose stripped part the path begins with.
(2) When the path is not registered and exactly one pattern is a wildcard candidate, the
result is the handler of that pattern under every visiting order. (3) When two visiting
orders give different results, the path is not registered and two different candidate
patterns with different handlers match it. -/
theorem match_soundness (r : Router) (path : String) :
    (∀ order, r.routes.RangeOrder order → ∀ h : Handler,
      r.findHandler order path = some h →
        r.routes.get path = some (some h) ∨
        (r.routes.get path = none ∧ ∃ p, Candidate r path p (some h))) ∧
    (∀ p h, r.routes.get path = none → Candidate r path p h →
      (∀ q hq, Candidate r path q hq → q = p) →
      ∀ order, r.routes.RangeOrder order → r.findHandler order path = h) ∧
    (∀ order1 order2, r.routes.RangeOrder order1 → r.routes.RangeOrder order2 →
      r.findHandler order1 path ≠ r.findHandler order2 path →
        r.routes.get path = none ∧
        ∃ p1 h1 p2 h2, Candidate r path p1 h1 ∧ Candidate r path p2 h2 ∧
          p1 ≠ p2 ∧ h1 ≠ h2) := by
  refine ⟨?_, ?_, ?_⟩
  · intro order hord h hres
    cases hget : r.routes.get path with
    | some v =>
      left
      rw [findHandler_exact r order path v hget] at hres
      rw [hres]
    | none =>
      right
      refine ⟨rfl, ?_⟩
      rcases findHandler_cases r order hord path hget with ⟨hn, _⟩ | ⟨p, h2, hc, hr⟩
      · rw [hn] at hres
        exact Option.noConfusion hres
      · rw [hr] at hres
        subst hres
        exact ⟨p, hc⟩
  · intro p h hget hcand huniq order hord
    rcases findHandler_cases r order hord path hget with ⟨_, hno⟩ | ⟨q, hq, hc, hr⟩
    · exact absurd hcand (hno _ _)
    · have hqp := huniq q hq hc
      subst hqp
      rw [hr]
      exact Option.some.inj (hc.1.symm.trans hcand.1)
  · intro order1 order2 hord1 hord2 hne
    cases hget : r.routes.get path with
    | some v =>
      exact absurd ((findHandler_exact r order1 path v hget).trans
        (findHandler_exact r order2 path v hget).symm) hne
    | none =>
      refine ⟨rfl, ?_⟩
      rcases findHandler_cases r order1 hord1 path hget with ⟨hn1, hno⟩ | ⟨p1, h1, hc1, hr1⟩
      · rcases findHandler_cases r order2 hord2 path hget with ⟨hn2, _⟩ | ⟨p2, h2, hc2, _⟩
        · exact absurd (hn1.trans hn2.symm) hne
        · exact absurd hc2 (hno _ _)
      · rcases findHandler_cases r order2 hord2 path hget with ⟨_, hno⟩ | ⟨p2, h2, hc2, hr2⟩
        · exact absurd hc1 (hno _ _)
        · have hh : h1 ≠ h2 := fun e => hne (by rw [hr1, hr2, e])
          refine ⟨p1, h1, p2, h2, hc1, hc2, ?_, hh⟩
          intro e
          subst e
          exact hh (Option.some.inj (hc1.1.symm.trans hc2.1))

/-- C10, at a concrete input: in `overlapRouter` the path `/a/b/c` has two candidates, and
the two visiting orders of the route map give different handlers. -/
theorem match_soundness_witness :
    overlapRouter.routes.get "/a/b/c" = none ∧
    ∃ p1 h1 p2 h2, Candidate overlapRouter "/a/b/c" p1 h1 ∧
      Candidate overlapRouter "/a/b/c" p2 h2 ∧ p1 ≠ p2 ∧ h1 ≠ h2 :=
  (match_soundness overlapRouter "/a/b/c").2.2 overlapOrder overlapOrder.reverse
    overlapOrder_rangeOrder
    (fun k v => by rw [List.mem_reverse]; exact overlapOrder_rangeOrder k v)
    (by
      intro h
      have h1 : overlapRouter.findHandler overlapOrder "/a/b/c" = some (replyWith 202) := rfl
      have h2 : overlapRouter.findHandler overlapOrder.reverse "/a/b/c" =
          some (replyWith 201) := rfl
      rw [h1, h2] at h
      exact replyWith_ne (by decide) (Option.some.inj h))

/-- C3 as stated fails: on `nilRouter` the path `/x` is a registered pattern, yet
`findHandler` returns nil and `ServeHTTP` replies 404, because the handler registered
under `/x` is the nil interface. -/
theorem not_found_counterexample :
    nilRouter.routes.get "/x" = some none ∧
    nilRouter.routes.RangeOrder nilOrder ∧
    nilRouter.findHandler nilOrder "/x" = none ∧
    nilRouter.ServeHTTP nilOrder ⟨"GET", "/x", "10.0.0.1:5000", ""⟩ { now := 0 } =
      NotFound { now := 0 } ⟨"GET", "/x", "10.0.0.1:5000", ""⟩ ∧
    (nilRouter.ServeHTTP nilOrder ⟨"GET", "/x", "10.0.0.1:5000", ""⟩
      { now := 0 }).resp.status = some 404 :=
  ⟨rfl, nilOrder_rangeOrder, rfl, rfl, rfl⟩

/-- C3, amended. For every router none of whose patterns is registered with a nil
handler, every visiting order and every request of any method: `findHandler` returns nil
exactly when the path is not a registered pattern and no registered pattern ending in
`/*` has a stripped part the path begins with. In that case `ServeHTTP` is the 404 reply
of `http.NotFound` and nothing else: the result does not depend on any registered handler
or middleware, the client store of the rate limiter, the clock and the log are untouched,
and a fresh response gets status 404. In the other case `ServeHTTP` runs the matched
handler wrapped in the middlewares. -/
theorem not_found_iff (r : Router) (order : List (String × Option Handler)) (req : Request)
    (w : World) (hord : r.routes.RangeOrder order)
    (hnonnil : ∀ p, r.routes.get p ≠ some none) :
    (r.findHandler order req.Path = none ↔
      (r.routes.get req.Path = none ∧ ∀ p h, ¬ Candidate r req.Path p h)) ∧
    (r.findHandler order req.Path = none →
      r.ServeHTTP order req w = NotFound w req ∧
      (r.ServeHTTP order req w).clients = w.clients ∧
      (r.ServeHTTP order req w).now = w.now ∧
      (r.ServeHTTP order req w).log = w.log ∧
      (w.resp.status = none → (r.ServeHTTP order req w).resp.status = some 404)) ∧
    (∀ h : Handler, r.findHandler order req.Path = some h →
      r.ServeHTTP order req w = r.middlewares.foldr (fun m acc => m acc) h req w) := by
  refine ⟨?_, ?_, ?_⟩
  · constructor
    · intro hres
      cases hget : r.routes.get req.Path with
      | some v =>
        rw [findHandler_exact r order req.Path v hget] at hres
        subst hres
        exact absurd hget (hnonnil _)
      | none =>
        refine ⟨rfl, ?_⟩
        rcases findHandler_cases r order hord req.Path hget with ⟨_, hno⟩ | ⟨p, h, hc, hr⟩
        · exact hno
        · rw [hr] at hres
          subst hres
          exact absurd hc.1 (hnonnil _)
    · rintro ⟨hget, hno⟩
      rcases findHandler_cases r order hord req.Path hget with ⟨hn, _⟩ | ⟨p, h, hc, _⟩
      · exact hn
      · exact absurd hc (hno _ _)
  · intro hres
    have heq : r.ServeHTTP order req w = NotFound w req := ServeHTTP_nil r order req w hres
    rw [heq]
    refine ⟨rfl, rfl, rfl, rfl, ?_⟩
    intro hst
    simp [NotFound, Error, Write, WriteHeader, SetHeader, hst]
  · intro h hres
    exact ServeHTTP_found r order req w h hres

/-- C3 amended, at a concrete input: `/nonexistent` on the router of the default
configuration. -/
theorem not_found_iff_witness :
    serviceRouter.ServeHTTP serviceOrder ⟨"OPTIONS", "/nonexistent", "10.0.0.1:5000", ""⟩
      { now := 0 } = NotFound { now := 0 } ⟨"OPTIONS", "/nonexistent", "10.0.0.1:5000", ""⟩ :=
  ((not_found_iff serviceRouter serviceOrder ⟨"OPTIONS", "/nonexistent", "10.0.0.1:5000", ""⟩
    { now := 0 } serviceOrder_rangeOrder
    (by
      intro p hp
      rcases serviceRouter_get p none hp with ⟨_, h⟩ | ⟨_, h⟩ <;> exact Option.noConfusion h)).2.1
    rfl).1

/-- C4. Middleware order: on the router built by any sequence of calls, for every request
whose path `findHandler` resolves to the handler `h`, `ServeHTTP` runs
`m_1(m_2(...(m_k(h))))`, the right fold over `h` of the middlewares passed to `Use` in
call order. On the router of a gateway that `gateway.New` built from the configuration
`cfg` this is `Logger(CORS(RateLimiter(cfg.RateLimit)(h)))`. -/
theorem middleware_order (ops : List Op) (order : List (String × Option Handler))
    (req : Request) (w : World) (h : Handler) :
    ((runOps Router.New ops).findHandler order req.Path = some h →
      (runOps Router.New ops).ServeHTTP order req w =
        (usedMiddlewares ops).foldr (fun m acc => m acc) h req w) ∧
    (∀ b cfg gw, Gateway.New b (some cfg) = .ok gw →
      gw.router.findHandler order req.Path = some h →
        gw.router.ServeHTTP order req w =
          Logger (CORS (RateLimiter cfg.RateLimit h)) req w) := by
  constructor
  · intro hres
    rw [ServeHTTP_found _ order req w h hres, runOps_middlewares]
    rfl
  · intro b cfg gw hnew hres
    rw [ServeHTTP_found _ order req w h hres, Gateway.New_middlewares b cfg gw hnew]
    rfl

/-- C4, at a concrete input: three calls of `Use` with a route registered in between. -/
theorem middleware_order_witness :
    (runOps Router.New [Op.use Logger, Op.handleFunc "/health" (replyWith 200), Op.use CORS,
        Op.use (RateLimiter 2)]).ServeHTTP [("/health", some (replyWith 200))]
        ⟨"GET", "/health", "10.0.0.1:5000", ""⟩ { now := 0 } =
      Logger (CORS (RateLimiter 2 (replyWith 200))) ⟨"GET", "/health", "10.0.0.1:5000", ""⟩
        { now := 0 } :=
  (middleware_order [Op.use Logger, Op.handleFunc "/health" (replyWith 200), Op.use CORS,
    Op.use (RateLimiter 2)] [("/health", some (replyWith 200))]
    ⟨"GET", "/health", "10.0.0.1:5000", ""⟩ { now := 0 } (replyWith 200)).1 rfl

/-- C5. Preflight short-circuit: for every limit `n`, every world (so every state of the
client store) and every `OPTIONS` request served through `CORS(RateLimiter(n)(h))`, the
result is the world as it was with a response of status 200, the three CORS headers and
an empty body. Hence the result is the same for every terminal handler (none is run), the
client store, the clock and the log are what they were, every later rate-limit check
answers and stores what it would have without the `OPTIONS` request, and every later
request is served exactly as if the `OPTIONS` request had never been made. -/
theorem preflight_short_circuit (n : Int) (h : Handler) (req : Request) (w : World)
    (hopt : req.Method = "OPTIONS") :
    Serve (CORS (RateLimiter n h)) req w =
      { w with resp :=
        { header := [("Access-Control-Allow-Origin", "*"),
            ("Access-Control-Allow-Methods", "GET, POST, PUT, DELETE, OPTIONS"),
            ("Access-Control-Allow-Headers", "Content-Type, Authorization")],
          status := some 200,
          body := "" } } ∧
    (Serve (CORS (RateLimiter n h)) req w).resp.status = some 200 ∧
    headerGet (Serve (CORS (RateLimiter n h)) req w).resp.header
      "Access-Control-Allow-Origin" = some "*" ∧
    headerGet (Serve (CORS (RateLimiter n h)) req w).resp.header
      "Access-Control-Allow-Methods" = some "GET, POST, PUT, DELETE, OPTIONS" ∧
    headerGet (Serve (CORS (RateLimiter n h)) req w).resp.header
      "Access-Control-Allow-Headers" = some "Content-Type, Authorization" ∧
    (Serve (CORS (RateLimiter n h)) req w).resp.body = "" ∧
    (∀ h2 : Handler, Serve (CORS (RateLimiter n h2)) req w =
      Serve (CORS (RateLimiter n h)) req w) ∧
    (Serve (CORS (RateLimiter n h)) req w).clients = w.clients ∧
    (Serve (CORS (RateLimiter n h)) req w).now = w.now ∧
    (Serve (CORS (RateLimiter n h)) req w).log = w.log ∧
    (∀ ip, (rateLimitCheck n ip (Serve (CORS (RateLimiter n h)) req w)).1 =
        (rateLimitCheck n ip w).1 ∧
      (rateLimitCheck n ip (Serve (CORS (RateLimiter n h)) req w)).2.clients =
        (rateLimitCheck n ip w).2.clients) ∧
    (∀ (next : Handler) (req2 : Request),
      Serve (CORS (RateLimiter n next)) req2 (Serve (CORS (RateLimiter n h)) req w) =
        Serve (CORS (RateLimiter n next)) req2 w) := by
  have key : ∀ h2 : Handler, Serve (CORS (RateLimiter n h2)) req w =
      { w with resp :=
        { header := [("Access-Control-Allow-Origin", "*"),
            ("Access-Control-Allow-Methods", "GET, POST, PUT, DELETE, OPTIONS"),
            ("Access-Control-Allow-Headers", "Content-Type, Authorization")],
          status := some 200,
          body := "" } } := by
    intro h2
    simp only [Serve, CORS, hopt, if_true]
    rfl
  refine ⟨key h, ?_, ?_, ?_, ?_, ?_, ?_, ?_, ?_, ?_, ?_, ?_⟩
  · rw [key h]
  · rw [key h]; rfl
  · rw [key h]; rfl
  · rw [key h]; rfl
  · rw [key h]
  · intro h2; rw [key h2, key h]
  · rw [key h]
  · rw [key h]
  · rw [key h]
  · intro ip; rw [key h]; exact ⟨rfl, rfl⟩
  · intro next req2; rw [key h]; rfl

/-- C5, at a concrete input: `OPTIONS /api/v1/orders/42` with limit 2. -/
theorem preflight_short_circuit_witness :
    (Serve (CORS (RateLimiter 2 (replyWith 201)))
      ⟨"OPTIONS", "/api/v1/orders/42", "10.0.0.1:5000", ""⟩ { now := 0 }).resp.status = some 200 :=
  (preflight_short_circuit 2 (replyWith 201)
    ⟨"OPTIONS", "/api/v1/orders/42", "10.0.0.1:5000", ""⟩ { now := 0 } rfl).2.1

/-! ## The claims about the rate limiter -/

/-- C6 as stated fails: `requestsPerSecond = 2 ^ 62` is a non-negative `int`, the capacity
`requestsPerSecond*2` wraps to `-2 ^ 63`, and the very first request of a client not seen
before is refused with status 429 instead of being admitted. -/
theorem burst_limit_counterexample :
    (0 : Int) ≤ 2 ^ 62 ∧
    wrapInt64 (2 ^ 62 * 2) = -2 ^ 63 ∧
    ({ now := 0 } : World).clients.get sampleRequest.RemoteAddr = none ∧
    (rateLimitCheck (2 ^ 62) sampleRequest.RemoteAddr { now := 0 }).1 = false ∧
    (Serve (RateLimiter (2 ^ 62) (replyWith 200)) sampleRequest { now := 0 }).resp.status =
      some 429 := by
  refine ⟨by decide, by decide, rfl, by decide, by decide⟩

/-- C6, amended. For every `requestsPerSecond = n` with `0 ≤ n < 2 ^ 62` (so that `n*2`
does not overflow), every next handler that leaves the client store and the clock alone,
and every sequence of requests of one client key not seen before, served through
`RateLimiter(n)` with no time elapsing: request number `k + 1` is admitted, that is the
bucket answers true and the reply is that of the next handler, when `k < 2n`; it is
refused, that is the bucket answers false and the reply has status 429 and the body
`Rate limit exceeded` whatever the next handler is, when `k ≥ 2n`. In particular of
`2n + 1` requests exactly the first `2n` are admitted. -/
theorem burst_limit (n : Int) (next : Handler) (ip : String) (w v : World)
    (reqs : List Request) (k : Nat) (hk : k < reqs.length)
    (hn0 : 0 ≤ n) (hn : n < 2 ^ 62)
    (hnext : ∀ r u, (next r u).clients = u.clients ∧ (next r u).now = u.now)
    (hnew : w.clients.get ip = none)
    (hip : ∀ r ∈ reqs, r.RemoteAddr = ip)
    (hv : v = serveAll (RateLimiter n next) (reqs.take k) w) :
    ((k : Int) < 2 * n →
      (rateLimitCheck n ip { v with resp := {} }).1 = true ∧
      Serve (RateLimiter n next) reqs[k] v =
        next reqs[k] (rateLimitCheck n ip { v with resp := {} }).2) ∧
    (2 * n ≤ (k : Int) →
      (rateLimitCheck n ip { v with resp := {} }).1 = false ∧
      Serve (RateLimiter n next) reqs[k] v =
        Error (rateLimitCheck n ip { v with resp := {} }).2 "Rate limit exceeded" 429 ∧
      (Serve (RateLimiter n next) reqs[k] v).resp.status = some 429 ∧
      (Serve (RateLimiter n next) reqs[k] v).resp.body = "Rate limit exceeded") := by
  have hk1 : reqs[k].RemoteAddr = ip := hip _ (List.getElem_mem hk)
  have h0 : BurstState n w.now ip 0 w := ⟨rfl, hnew⟩
  have htake : ∀ r ∈ reqs.take k, r.RemoteAddr = ip :=
    fun r hr => hip r (List.mem_of_mem_take hr)
  have hst := serveAll_burst n w.now ip next hn0 hn hnext (reqs.take k) htake 0 w h0
  rw [← hv, List.length_take, Nat.min_eq_left (Nat.le_of_lt hk), Nat.zero_add] at hst
  have hst2 : BurstState n w.now ip k { v with resp := {} } :=
    BurstState_congr n w.now ip k v _ rfl rfl hst
  have hans := (rateLimitCheck_burst n w.now ip k _ hn0 hn hst2).1
  constructor
  · intro hlt
    have htrue : (rateLimitCheck n ip { v with resp := {} }).1 = true := by
      rw [hans]; exact decide_eq_true hlt
    refine ⟨htrue, ?_⟩
    unfold Serve RateLimiter
    simp only [hk1, htrue]
    rfl
  · intro hge
    have hfalse : (rateLimitCheck n ip { v with resp := {} }).1 = false := by
      rw [hans]; exact decide_eq_false (by omega)
    have hserve : Serve (RateLimiter n next) reqs[k] v =
        Error (rateLimitCheck n ip { v with resp := {} }).2 "Rate limit exceeded" 429 := by
      unfold Serve RateLimiter
      simp only [hk1, hfalse]
      rfl
    refine ⟨hfalse, hserve, ?_, ?_⟩
    · rw [hserve]; rfl
    · rw [hserve]
      show ("" : String) ++ "Rate limit exceeded" = "Rate limit exceeded"
      decide

/-- C6 amended, at a concrete input: limit 2 and five requests at time 0; the fourth is
answered by the next handler and the fifth with status 429. -/
theorem burst_limit_witness :
    Serve (RateLimiter 2 (replyWith 200)) sampleRequest
        (serveAll (RateLimiter 2 (replyWith 200)) (List.replicate 3 sampleRequest) { now := 0 }) =
      replyWith 200 sampleRequest
        (rateLimitCheck 2 sampleRequest.RemoteAddr
          { serveAll (RateLimiter 2 (replyWith 200)) (List.replicate 3 sampleRequest)
              { now := 0 } with resp := {} }).2 ∧
    (Serve (RateLimiter 2 (replyWith 200)) sampleRequest
        (serveAll (RateLimiter 2 (replyWith 200)) (List.replicate 4 sampleRequest)
          { now := 0 })).resp.status = some 429 :=
  ⟨((burst_limit 2 (replyWith 200) sampleRequest.RemoteAddr { now := 0 } _
      (List.replicate 5 sampleRequest) 3 (by decide) (by decide) (by decide)
      (fun _ _ => ⟨rfl, rfl⟩) rfl
      (fun r hr => by rw [List.eq_of_mem_replicate hr]) rfl).1 (by decide)).2,
   ((burst_limit 2 (replyWith 200) sampleRequest.RemoteAddr { now := 0 } _
      (List.replicate 5 sampleRequest) 4 (by decide) (by decide) (by decide)
      (fun _ _ => ⟨rfl, rfl⟩) rfl
      (fun r hr => by rw [List.eq_of_mem_replicate hr]) rfl).2 (by decide)).2.2.1⟩

/-- C7. Eviction sweep. (1) Every rate-limit check of a client, whatever the bucket
answers, leaves the client in the store with `lastSeen` equal to the clock of the check,
and so does every request through `RateLimiter`, admitted or refused, when the next
handler leaves the store alone. (2) One pass of the sweep at time `t = w.now`, under
every visiting order: a client with `t - lastSeen > 10` minutes is absent afterwards,
every other client is present with the same bucket and the same `lastSeen`, no client
appears, and the clock, the log and the response are untouched. (3) The request path
removes no client: after a request through `Logger(CORS(RateLimiter(n)(next)))`, or after
the 404 reply, every client that was in the store is still there, and every client but
the one making the request is unchanged. -/
theorem eviction_sweep (n : Int) (next : Handler) (r : Request) (w : World)
    (order : List (String × client)) (ip : String) :
    ((∃ c, (rateLimitCheck n ip w).2.clients.get ip = some c ∧ c.lastSeen = w.now) ∧
      ((∀ q u, (next q u).clients = u.clients) →
        ∃ c, (RateLimiter n next r w).clients.get r.RemoteAddr = some c ∧
          c.lastSeen = w.now)) ∧
    (w.clients.RangeOrder order →
      (∀ c, w.clients.get ip = some c → w.now - c.lastSeen > 10 * Minute →
        (cleanupTick order w).clients.get ip = none) ∧
      (∀ c, w.clients.get ip = some c → ¬ w.now - c.lastSeen > 10 * Minute →
        (cleanupTick order w).clients.get ip = some c) ∧
      (w.clients.get ip = none → (cleanupTick order w).clients.get ip = none) ∧
      (cleanupTick order w).now = w.now ∧ (cleanupTick order w).log = w.log ∧
      (cleanupTick order w).resp = w.resp) ∧
    ((∀ q u, (next q u).clients = u.clients) →
      (w.clients.get ip ≠ none →
        (Logger (CORS (RateLimiter n next)) r w).clients.get ip ≠ none) ∧
      (ip ≠ r.RemoteAddr →
        (Logger (CORS (RateLimiter n next)) r w).clients.get ip = w.clients.get ip) ∧
      (NotFound w r).clients = w.clients) := by
  have hcheck : ∀ (j : String) (u : World),
      ∃ c, (rateLimitCheck n j u).2.clients.get j = some c ∧ c.lastSeen = u.now := by
    intro j u
    simp only [rateLimitCheck, GoMap.get_set, if_true]
    exact ⟨_, rfl, rfl⟩
  have hother : ∀ (j : String) (u : World), ip ≠ j →
      (rateLimitCheck n j u).2.clients.get ip = u.clients.get ip := by
    intro j u hne
    simp only [rateLimitCheck, GoMap.get_set, if_neg hne]
  have hlimiter : ∀ u : World, (∀ q u, (next q u).clients = u.clients) →
      (RateLimiter n next r u).clients = (rateLimitCheck n r.RemoteAddr u).2.clients := by
    intro u hnext
    unfold RateLimiter
    simp only
    split
    · rfl
    · exact hnext _ _
  have hchain : ∀ u : World, (∀ q u, (next q u).clients = u.clients) →
      (Logger (CORS (RateLimiter n next)) r u).clients = u.clients ∨
      (Logger (CORS (RateLimiter n next)) r u).clients =
        (rateLimitCheck n r.RemoteAddr
          (SetHeader (SetHeader (SetHeader (Printf u "[%s] %s %s"
            [r.Method, r.Path, r.RemoteAddr]) "Access-Control-Allow-Origin" "*")
            "Access-Control-Allow-Methods" "GET, POST, PUT, DELETE, OPTIONS")
            "Access-Control-Allow-Headers" "Content-Type, Authorization")).2.clients := by
    intro u hnext
    by_cases hm : r.Method = "OPTIONS"
    · left
      simp only [Logger, CORS, hm, if_true]
      rfl
    · right
      simp only [Logger, CORS, hm, if_false]
      exact hlimiter _ hnext
  refine ⟨⟨hcheck ip w, ?_⟩, ?_, ?_⟩
  · intro hnext
    rw [hlimiter w hnext]
    exact hcheck _ w
  · intro hord
    have hget := cleanupTick_get order w hord ip
    refine ⟨?_, ?_, ?_, rfl, rfl, rfl⟩
    · intro c hc hst
      rw [hget, hc]
      simp only [if_pos hst]
    · intro c hc hst
      rw [hget, hc]
      simp only [if_neg hst]
    · intro hc
      rw [hget, hc]
  · intro hnext
    refine ⟨?_, ?_, rfl⟩
    · intro hpresent
      rcases hchain w hnext with h | h
      · rw [h]; exact hpresent
      · rw [h]
        by_cases hip : ip = r.RemoteAddr
        · obtain ⟨c, hc, _⟩ := hcheck r.RemoteAddr
            (SetHeader (SetHeader (SetHeader (Printf w "[%s] %s %s"
              [r.Method, r.Path, r.RemoteAddr]) "Access-Control-Allow-Origin" "*")
              "Access-Control-Allow-Methods" "GET, POST, PUT, DELETE, OPTIONS")
              "Access-Control-Allow-Headers" "Content-Type, Authorization")
          rw [hip, hc]
          exact Option.noConfusion
        · rw [hother _ _ hip]
          exact hpresent
    · intro hip
      rcases hchain w hnext with h | h
      · rw [h]
      · rw [h, hother _ _ hip]
        rfl

/-- C7, at a concrete input: the sweep at minute 11 over `twoClients` removes the client
last seen at time 0 and keeps the one last seen at minute 11. -/
theorem eviction_sweep_witness :
    (cleanupTick twoClientsOrder { now := 11 * Minute, clients := twoClients }).clients.get
        "10.0.0.1:5000" = none ∧
    (cleanupTick twoClientsOrder { now := 11 * Minute, clients := twoClients }).clients.get
        "10.0.0.2:6000" = some { limiter := NewLimiter 2 4, lastSeen := 11 * Minute } :=
  ⟨((eviction_sweep 2 (replyWith 200) sampleRequest
      { now := 11 * Minute, clients := twoClients } twoClientsOrder "10.0.0.1:5000").2.1
      twoClients_rangeOrder).1 _ rfl (by decide),
   ((eviction_sweep 2 (replyWith 200) sampleRequest
      { now := 11 * Minute, clients := twoClients } twoClientsOrder "10.0.0.2:6000").2.1
      twoClients_rangeOrder).2.1 _ rfl (by decide)⟩

/-! ## The claim about startup -/

/-- C8 as stated fails: `gateway.New` returns a Gateway for the non-nil configuration
`emptyConfig`, whose server address and service list are empty, and for `namelessConfig`,
whose service has an empty name. -/
theorem startup_fatal_counterexample :
    emptyConfig.Server.Address = "" ∧ emptyConfig.Services = [] ∧
    (∃ gw, Gateway.New echoBackend (some emptyConfig) = .ok gw) ∧
    (∃ svc ∈ namelessConfig.Services, svc.Name = "") ∧
    (∃ gw, Gateway.New echoBackend (some namelessConfig) = .ok gw) :=
  ⟨rfl, rfl, ⟨_, rfl⟩, ⟨_, List.mem_cons_self _ _, rfl⟩, ⟨_, rfl⟩⟩

/-- C8, amended. For every configuration that has an empty server address, or an empty
service list, or a service whose name, path or target is empty, and for no other,
`Config.Validate` returns an error. `config.Load` returns an error and no configuration
whenever the configuration file exists, is read and parses to such a configuration, and
no configuration that `Load` returns has one of these defects. `gateway.New` does not
validate: for a non-nil configuration it returns a Gateway exactly when the target of
every service parses as a URL, and an error and no Gateway exactly when the target of
some service does not. -/
theorem startup_validation (fs : Files) (b : Backend) (c : Config) :
    ((∃ err, c.Validate = .error err) ↔ c.Malformed) ∧
    (c.Malformed → ∀ data, fs.NotExist (configPath fs) = false →
      fs.ReadFile (configPath fs) = .ok data → fs.Unmarshal data = .ok c →
        (∃ err, Load fs = .error err) ∧ ∀ cfg, Load fs ≠ .ok cfg) ∧
    (Load fs = .ok c → ¬ c.Malformed) ∧
    ((∃ gw, Gateway.New b (some c) = .ok gw) ↔
      ∀ svc ∈ c.Services, ∃ u, b.parse svc.Target = .ok u) ∧
    ((∃ err, Gateway.New b (some c) = .error err) ↔
      ∃ svc ∈ c.Services, ∃ e, b.parse svc.Target = .error e) := by
  refine ⟨Validate_error_iff c, ?_, Load_wellformed fs c, Gateway.New_ok_iff b c, ?_⟩
  · intro hbad data hexists hread hparse
    obtain ⟨err, herr⟩ := Load_malformed fs data c hexists hread hparse hbad
    refine ⟨⟨err, herr⟩, ?_⟩
    intro cfg hcfg
    rw [herr] at hcfg
    cases hcfg
  have hok := Gateway.New_ok_iff b c
  constructor
  · rintro ⟨err, herr⟩
    by_contra hno
    have hall : ∀ svc ∈ c.Services, ∃ u, b.parse svc.Target = .ok u := by
      intro svc hsvc
      cases hp : b.parse svc.Target with
      | ok u => exact ⟨u, rfl⟩
      | error e => exact absurd ⟨svc, hsvc, e, hp⟩ hno
    obtain ⟨gw, hgw⟩ := hok.mpr hall
    rw [hgw] at herr
    cases herr
  · rintro ⟨svc, hsvc, e, he⟩
    cases hnew : Gateway.New b (some c) with
    | error err => exact ⟨err, rfl⟩
    | ok gw =>
      obtain ⟨u, hu⟩ := hok.mp ⟨gw, hnew⟩ svc hsvc
      rw [hu] at he
      cases he

/-- C8 amended, at a concrete input: `Validate` refuses `namelessConfig`, `Load` fails on
a file that parses to it, and `gateway.New` accepts it with a backend that parses every
target. -/
theorem startup_validation_witness :
    (∃ err, namelessConfig.Validate = .error err) ∧
    (∃ err, Load namelessFiles = .error err) ∧
    (∃ gw, Gateway.New echoBackend (some namelessConfig) = .ok gw) :=
  ⟨(startup_validation namelessFiles echoBackend namelessConfig).1.mpr
      (Or.inr (Or.inr ⟨_, List.mem_cons_self _ _, Or.inl rfl⟩)),
   ((startup_validation namelessFiles echoBackend namelessConfig).2.1
      (Or.inr (Or.inr ⟨_, List.mem_cons_self _ _, Or.inl rfl⟩)) "config" rfl rfl rfl).1,
   (startup_validation namelessFiles echoBackend namelessConfig).2.2.2.1.mpr
      (fun _ _ => ⟨_, rfl⟩)⟩

end ApiGateway
